import Mathlib

/-!
Verification of the data-preparation and evaluation-reporting pipeline of the
ECG_AFIB repository (three scripts: `CNN_LSTM_Hybrid.py`, `GradientBoost.py`,
`resnet_Optimized.py`).  The pipeline stages authored by the repository are
embedded shallowly: a dataset is a list of feature rows over `ℚ`, the quality
filters are list filters, and the library calls the scripts make
(`StandardScaler`, `SMOTE.fit_resample`, `train_test_split`, `roc_auc_score`,
the report renderer's file operations) are embedded following their documented
input/output contracts, with explicit error values where the library raises.
-/

/-- One row of the input CSV: the eight feature columns used by the scripts,
the `signal_quality` column, and the two label columns
(`num_AFIB_annotations` used by `CNN_LSTM_Hybrid.py` and `GradientBoost.py`,
`has_AFIB` used by `resnet_Optimized.py`). -/
structure FeatureRow where
  hrv_sdnn : ℚ
  hrv_rmssd : ℚ
  hrv_mean : ℚ
  cv : ℚ
  heart_rate_std : ℚ
  heart_rate_mean : ℚ
  sd1 : ℚ
  sd2 : ℚ
  signal_quality : ℚ
  num_AFIB_annot : ℕ
  has_AFIB : ℕ
deriving DecidableEq, Repr, Inhabited

/-- Predicate of the first filter line: `df[df['hrv_sdnn'] <= 500]`. -/
def sdnnOk (r : FeatureRow) : Bool := r.hrv_sdnn ≤ 500

/-- Predicate of the second filter line: `df[df['hrv_rmssd'] <= 500]`. -/
def rmssdOk (r : FeatureRow) : Bool := r.hrv_rmssd ≤ 500

/-- Predicate of the third filter line: `df[df['cv'] <= 0.5]`. -/
def cvOk (r : FeatureRow) : Bool := r.cv ≤ 1/2

/-- Predicate of the fourth filter line, `df[df['signal_quality'] >= t]`:
`t = 0.3` in `CNN_LSTM_Hybrid.py` and `GradientBoost.py`, `t = 0.5` in
`resnet_Optimized.py`. -/
def sqOk (t : ℚ) (r : FeatureRow) : Bool := r.signal_quality ≥ t

/-- The four sequential row filters at the top of `prepare_data`, applied in
the source order (SDNN, then RMSSD, then cv, then signal quality with
per-script threshold `t`). -/
def filterQuality (t : ℚ) (df : List FeatureRow) : List FeatureRow :=
  ((((df.filter sdnnOk).filter rmssdOk).filter cvOk).filter (sqOk t))

/-- Conjunction of the four quality predicates at signal-quality threshold
`t`. -/
def qualityOk (t : ℚ) (r : FeatureRow) : Bool :=
  sdnnOk r && rmssdOk r && cvOk r && sqOk t r

/-- Left fold applying a list of row filters in order, used to state the
claim that the filter order is irrelevant. -/
def applyFilters (ps : List (FeatureRow → Bool)) (df : List FeatureRow) :
    List FeatureRow :=
  ps.foldl (fun d p => d.filter p) df

/-- The four quality predicates, in source order, at threshold `t`. -/
def qualityPreds (t : ℚ) : List (FeatureRow → Bool) :=
  [sdnnOk, rmssdOk, cvOk, sqOk t]

theorem filterQuality_eq_applyFilters (t : ℚ) (df : List FeatureRow) :
    filterQuality t df = applyFilters (qualityPreds t) df := rfl

theorem filterQuality_eq_filter_qualityOk (t : ℚ) (df : List FeatureRow) :
    filterQuality t df = df.filter (qualityOk t) := by
  simp only [filterQuality, List.filter_filter]
  apply List.filter_congr
  intro r _
  simp only [qualityOk]
  cases sdnnOk r <;> cases rmssdOk r <;> cases cvOk r <;> cases sqOk t r <;> rfl

theorem filter_swap {α : Type} (p q : α → Bool) (l : List α) :
    (l.filter p).filter q = (l.filter q).filter p := by
  simp only [List.filter_filter]
  apply List.filter_congr
  intro a _
  cases p a <;> cases q a <;> rfl

theorem applyFilters_perm {ps qs : List (FeatureRow → Bool)} (h : ps.Perm qs)
    (df : List FeatureRow) : applyFilters ps df = applyFilters qs df := by
  induction h generalizing df with
  | nil => rfl
  | cons p _ ih => exact ih (df.filter p)
  | swap p q l => show applyFilters l ((df.filter q).filter p) = _
                  rw [filter_swap]
                  rfl
  | trans _ _ ih1 ih2 => rw [ih1, ih2]

/-- Signal-quality threshold hard-coded in `CNN_LSTM_Hybrid.py` (`>= 0.3`). -/
def cnnLstmThreshold : ℚ := 3/10

/-- Signal-quality threshold hard-coded in `GradientBoost.py` (`>= 0.3`). -/
def gradientBoostThreshold : ℚ := 3/10

/-- Signal-quality threshold hard-coded in `resnet_Optimized.py` (`>= 0.5`). -/
def resnetThreshold : ℚ := 1/2

theorem mem_filterQuality {t : ℚ} {df : List FeatureRow} {r : FeatureRow} :
    r ∈ filterQuality t df ↔
      r ∈ df ∧ r.hrv_sdnn ≤ 500 ∧ r.hrv_rmssd ≤ 500 ∧ r.cv ≤ 1/2 ∧
        t ≤ r.signal_quality := by
  rw [filterQuality_eq_filter_qualityOk, List.mem_filter]
  simp [qualityOk, sdnnOk, rmssdOk, cvOk, sqOk, ge_iff_le, and_assoc]

/-- C1: after the quality-filtering step of `prepare_data`, every remaining
row satisfies `hrv_sdnn ≤ 500`, `hrv_rmssd ≤ 500`, `cv ≤ 0.5` and
`signal_quality ≥ threshold`, where the threshold is 0.3 in
`CNN_LSTM_Hybrid.py` and `GradientBoost.py` and 0.5 in
`resnet_Optimized.py`. -/
theorem filterQuality_invariant (df : List FeatureRow) (r : FeatureRow) :
    (r ∈ filterQuality cnnLstmThreshold df →
       r.hrv_sdnn ≤ 500 ∧ r.hrv_rmssd ≤ 500 ∧ r.cv ≤ 1/2 ∧
         r.signal_quality ≥ 3/10) ∧
    (r ∈ filterQuality gradientBoostThreshold df →
       r.hrv_sdnn ≤ 500 ∧ r.hrv_rmssd ≤ 500 ∧ r.cv ≤ 1/2 ∧
         r.signal_quality ≥ 3/10) ∧
    (r ∈ filterQuality resnetThreshold df →
       r.hrv_sdnn ≤ 500 ∧ r.hrv_rmssd ≤ 500 ∧ r.cv ≤ 1/2 ∧
         r.signal_quality ≥ 1/2) := by
  refine ⟨fun h => ?_, fun h => ?_, fun h => ?_⟩ <;>
    rcases mem_filterQuality.mp h with ⟨_, h1, h2, h3, h4⟩ <;>
    exact ⟨h1, h2, h3, h4⟩

/-- Example row passing all quality filters of all variants. -/
def rowGood : FeatureRow :=
  ⟨40, 30, 800, 0, 5, 70, 10, 20, 1, 1, 1⟩

/-- Example row failing the SDNN filter. -/
def rowBad : FeatureRow :=
  ⟨600, 30, 800, 0, 5, 70, 10, 20, 1, 0, 0⟩

theorem rowGood_mem_filtered :
    rowGood ∈ filterQuality cnnLstmThreshold [rowBad, rowGood] := by
  refine mem_filterQuality.mpr ⟨by simp, ?_, ?_, ?_, ?_⟩ <;>
    norm_num [rowGood, cnnLstmThreshold]

/-- Witness for `filterQuality_invariant` at a concrete dataset and row. -/
theorem filterQuality_invariant_witness :
    rowGood ∈ filterQuality cnnLstmThreshold [rowBad, rowGood] ∧
      rowGood.hrv_sdnn ≤ 500 ∧ rowGood.hrv_rmssd ≤ 500 ∧ rowGood.cv ≤ 1/2 ∧
        rowGood.signal_quality ≥ 3/10 :=
  ⟨rowGood_mem_filtered,
   (filterQuality_invariant [rowBad, rowGood] rowGood).1 rowGood_mem_filtered⟩

/-- C8: applying the four quality-filter predicates in any order yields the
same filtered dataset as the source order (filter application commutes). -/
theorem applyFilters_order_irrelevant (t : ℚ) (df : List FeatureRow)
    (ps : List (FeatureRow → Bool)) (h : ps.Perm (qualityPreds t)) :
    applyFilters ps df = filterQuality t df := by
  rw [applyFilters_perm h, filterQuality_eq_applyFilters]

/-- Witness for `applyFilters_order_irrelevant`: a concrete permutation of the
four predicates applied to a concrete dataset. -/
theorem applyFilters_order_irrelevant_witness :
    [rmssdOk, sdnnOk, cvOk, sqOk (3/10)].Perm (qualityPreds (3/10)) ∧
      applyFilters [rmssdOk, sdnnOk, cvOk, sqOk (3/10)] [rowBad, rowGood] =
        filterQuality (3/10) [rowBad, rowGood] :=
  ⟨List.Perm.swap sdnnOk rmssdOk _,
   applyFilters_order_irrelevant (3/10) [rowBad, rowGood] _
     (List.Perm.swap sdnnOk rmssdOk _)⟩

/-- C10: the quality-filtering step returns exactly the subsequence of input
rows satisfying all four predicates: it equals `List.filter` with the
conjoined predicate, it is a sublist of the input (rows unmodified, relative
order preserved), and no row satisfying all four predicates is dropped.
Stated for the recurrent variant (threshold 0.3) and the residual variant
(threshold 0.5); the boosted variant's filter code is identical to the
recurrent one. -/
theorem filterQuality_exact_subsequence (df : List FeatureRow) :
    (filterQuality cnnLstmThreshold df = df.filter (qualityOk cnnLstmThreshold) ∧
     (filterQuality cnnLstmThreshold df).Sublist df ∧
     ∀ r ∈ df, qualityOk cnnLstmThreshold r = true →
       r ∈ filterQuality cnnLstmThreshold df) ∧
    (filterQuality resnetThreshold df = df.filter (qualityOk resnetThreshold) ∧
     (filterQuality resnetThreshold df).Sublist df ∧
     ∀ r ∈ df, qualityOk resnetThreshold r = true →
       r ∈ filterQuality resnetThreshold df) := by
  refine ⟨⟨filterQuality_eq_filter_qualityOk _ df, ?_, ?_⟩,
          ⟨filterQuality_eq_filter_qualityOk _ df, ?_, ?_⟩⟩ <;>
    rw [filterQuality_eq_filter_qualityOk]
  · exact List.filter_sublist df
  · intro r hr hq
    exact List.mem_filter.mpr ⟨hr, hq⟩
  · exact List.filter_sublist df
  · intro r hr hq
    exact List.mem_filter.mpr ⟨hr, hq⟩

theorem rowGood_qualityOk : qualityOk cnnLstmThreshold rowGood = true := by
  simp only [qualityOk, sdnnOk, rmssdOk, cvOk, sqOk, Bool.and_eq_true,
    decide_eq_true_eq, ge_iff_le]
  refine ⟨⟨⟨?_, ?_⟩, ?_⟩, ?_⟩ <;> norm_num [rowGood, cnnLstmThreshold]

/-- Witness for `filterQuality_exact_subsequence` at a concrete dataset. -/
theorem filterQuality_exact_subsequence_witness :
    rowGood ∈ [rowBad, rowGood] ∧ qualityOk cnnLstmThreshold rowGood = true ∧
      rowGood ∈ filterQuality cnnLstmThreshold [rowBad, rowGood] :=
  ⟨by simp, rowGood_qualityOk,
   (filterQuality_exact_subsequence [rowBad, rowGood]).1.2.2 rowGood
     (by simp) rowGood_qualityOk⟩

/-- Error taxonomy of the spec, used where the scripts' library calls raise:
`StandardScaler.fit_transform` on zero rows, `SMOTE.fit_resample` on a
single-class or too-small minority target, `roc_auc_score` on a single-class
`y_true`, and PDF writing. -/
inductive PipelineError where
  | emptyDataset
  | insufficientSamples
  | singleClassTarget
  | metricUndefined
  | reportWrite
deriving DecidableEq, Repr

/-- The eight feature columns named in the scripts' `features` lists. -/
inductive Feature where
  | hrv_sdnn | hrv_rmssd | hrv_mean | cv
  | heart_rate_std | heart_rate_mean | sd1 | sd2
deriving DecidableEq, Repr

/-- Column access for a feature row. -/
def FeatureRow.getFeature (r : FeatureRow) : Feature → ℚ
  | .hrv_sdnn => r.hrv_sdnn
  | .hrv_rmssd => r.hrv_rmssd
  | .hrv_mean => r.hrv_mean
  | .cv => r.cv
  | .heart_rate_std => r.heart_rate_std
  | .heart_rate_mean => r.heart_rate_mean
  | .sd1 => r.sd1
  | .sd2 => r.sd2

/-- The `features` list of `CNN_LSTM_Hybrid.py` and `GradientBoost.py`
(eight columns). -/
def cnnLstmFeatures : List Feature :=
  [.hrv_sdnn, .hrv_rmssd, .hrv_mean, .cv,
   .heart_rate_std, .heart_rate_mean, .sd1, .sd2]

/-- The `features` list of `resnet_Optimized.py` (four columns). -/
def resnetFeatures : List Feature :=
  [.hrv_sdnn, .hrv_rmssd, .hrv_mean, .cv]

/-- Per-column mean fitted by `StandardScaler` over the filtered dataset. -/
def colMean (df : List FeatureRow) (f : Feature) : ℚ :=
  (df.map (fun r => r.getFeature f)).sum / df.length

/-- Per-column variance fitted by `StandardScaler` (population variance,
`ddof = 0` as sklearn uses). -/
def colVar (df : List FeatureRow) (f : Feature) : ℚ :=
  (df.map (fun r => (r.getFeature f - colMean df f) ^ 2)).sum / df.length

/-- One standardized cell of `scaler.fit_transform`.  The scaler's output is
`(x − μ) / √var`; since `√var` is irrational over `ℚ`, the cell is embedded
as the pair of the centered value `x − μ` and the fitted column variance,
which together determine the scaler's output (sklearn maps a zero-variance
column to 0, and there the centered value is 0 as well). -/
structure ScaledEntry where
  centered : ℚ
  variance : ℚ
deriving DecidableEq, Repr

/-- Embedding of `scaler.fit_transform(df[features])` in `prepare_data`:
sklearn's `StandardScaler` raises `ValueError` on an input with zero samples
(the spec's `EmptyDatasetError`); otherwise it fits per-column mean/variance
on the whole input and standardizes every row with those statistics. -/
def fit_transform (feats : List Feature) (df : List FeatureRow) :
    Except PipelineError (List (List ScaledEntry)) :=
  if df.length = 0 then .error .emptyDataset
  else .ok (df.map (fun r =>
    feats.map (fun f => ⟨r.getFeature f - colMean df f, colVar df f⟩)))

/-- C7: when the quality filters remove every row, the normalization step
fails with `EmptyDatasetError` instead of proceeding, in all three script
variants (the scaler is fitted on the filtered dataset). -/
theorem fit_transform_empty_filtered (df : List FeatureRow) :
    (filterQuality cnnLstmThreshold df = [] →
       fit_transform cnnLstmFeatures (filterQuality cnnLstmThreshold df) =
         .error .emptyDataset) ∧
    (filterQuality gradientBoostThreshold df = [] →
       fit_transform cnnLstmFeatures (filterQuality gradientBoostThreshold df) =
         .error .emptyDataset) ∧
    (filterQuality resnetThreshold df = [] →
       fit_transform resnetFeatures (filterQuality resnetThreshold df) =
         .error .emptyDataset) := by
  refine ⟨fun h => ?_, fun h => ?_, fun h => ?_⟩ <;> rw [h] <;> rfl

theorem rowBad_filtered_empty :
    filterQuality cnnLstmThreshold [rowBad] = [] := by
  rw [filterQuality_eq_filter_qualityOk]
  have h : qualityOk cnnLstmThreshold rowBad = false := by
    simp only [qualityOk, sdnnOk, Bool.and_eq_false_iff, decide_eq_false_iff_not]
    left
    left
    left
    norm_num [rowBad]
  simp [h]

/-- Witness for `fit_transform_empty_filtered`: a dataset whose single row
fails the SDNN filter, so normalization reports the empty-dataset error. -/
theorem fit_transform_empty_filtered_witness :
    filterQuality cnnLstmThreshold [rowBad] = [] ∧
      fit_transform cnnLstmFeatures (filterQuality cnnLstmThreshold [rowBad]) =
        .error .emptyDataset :=
  ⟨rowBad_filtered_empty,
   (fit_transform_empty_filtered [rowBad]).1 rowBad_filtered_empty⟩

/-- Linear congruential step standing in for numpy's seeded generator inside
`train_test_split(..., random_state=42)` and `SMOTE(random_state=42)`.  The
properties claimed of the split and of the resampler hold for every seed, so
only determinism of the stream matters, not its exact values. -/
def lcg (s : ℕ) : ℕ := (1664525 * s + 1013904223) % 2 ^ 32

/-- Fuelled draw-without-replacement shuffle: repeatedly pick the
pseudo-random position of the generator and move that element to the front of
the output, modelling the seeded index permutation sklearn draws in
`train_test_split`. -/
def shuffleGo {α : Type} : ℕ → ℕ → List α → List α
  | 0, _, l => l
  | _ + 1, _, [] => []
  | n + 1, s, a :: tl =>
    let xs := a :: tl
    let i := lcg s % xs.length
    xs.getD i a :: shuffleGo n (lcg s) (xs.eraseIdx i)

/-- Seeded permutation of a list. -/
def shuffle {α : Type} (s : ℕ) (l : List α) : List α := shuffleGo l.length s l

theorem get_cons_eraseIdx_perm {α : Type} (l : List α) (i : ℕ)
    (h : i < l.length) : (l[i] :: l.eraseIdx i).Perm l := by
  rw [List.eraseIdx_eq_take_drop_succ]
  have h1 : (l[i] :: (l.take i ++ l.drop (i + 1))).Perm
      (l.take i ++ (l[i] :: l.drop (i + 1))) := List.perm_middle.symm
  rw [List.getElem_cons_drop l i h, List.take_append_drop] at h1
  exact h1

theorem shuffleGo_perm {α : Type} (n : ℕ) :
    ∀ (s : ℕ) (l : List α), (shuffleGo n s l).Perm l := by
  induction n with
  | zero => intro s l; exact .refl l
  | succ n ih =>
    intro s l
    match l with
    | [] => exact .refl []
    | a :: tl =>
      simp only [shuffleGo]
      have hlen : lcg s % (a :: tl).length < (a :: tl).length :=
        Nat.mod_lt _ (by simp)
      rw [List.getD_eq_getElem _ _ hlen]
      exact ((ih _ _).cons _).trans (get_cons_eraseIdx_perm _ _ hlen)

theorem shuffle_perm {α : Type} (s : ℕ) (l : List α) : (shuffle s l).Perm l :=
  shuffleGo_perm l.length s l

/-- Number of test rows sklearn takes for `test_size=0.2`:
`ceil(0.2 * n)`. -/
def n_test (n : ℕ) : ℕ := (n + 4) / 5

/-- Index-level split of `train_test_split`: one seeded permutation of the
row indices `0..n-1`; the first `n_test n` permuted indices are the test
set, the remaining indices the train set.  Returns `(train, test)`. -/
def splitIndices (seed n : ℕ) : List ℕ × List ℕ :=
  let perm := shuffle seed (List.range n)
  (perm.drop (n_test n), perm.take (n_test n))

/-- Embedding of `train_test_split(x_res, y_res, test_size=0.2,
random_state=42)`: the same seeded index partition is applied to the feature
rows and to the labels.  Returns `(x_train, x_test, y_train, y_test)` in the
source's order. -/
def train_test_split {α β : Type} (seed : ℕ) (xs : List α) (ys : List β) :
    List α × List α × List β × List β :=
  let p := splitIndices seed xs.length
  (p.1.filterMap (fun i => xs[i]?), p.2.filterMap (fun i => xs[i]?),
   p.1.filterMap (fun i => ys[i]?), p.2.filterMap (fun i => ys[i]?))

theorem range_filterMap_getElem {α : Type} (xs : List α) :
    (List.range xs.length).filterMap (fun i => xs[i]?) = xs := by
  induction xs with
  | nil => rfl
  | cons a tl ih =>
    rw [List.length_cons, List.range_succ_eq_map, List.filterMap_cons]
    simp only [List.getElem?_cons_zero, List.filterMap_map]
    have hfun : ((fun i => (a :: tl)[i]?) ∘ Nat.succ) = fun i => tl[i]? := by
      funext i
      simp
    rw [hfun, ih]

theorem perm_filterMap_getElem {α : Type} {is : List ℕ} {xs : List α}
    (h : is.Perm (List.range xs.length)) :
    (is.filterMap (fun i => xs[i]?)).Perm xs := by
  have h2 := h.filterMap (fun i => xs[i]?)
  rwa [range_filterMap_getElem] at h2

theorem splitIndices_nodup (seed n : ℕ) :
    (shuffle seed (List.range n)).Nodup :=
  (shuffle_perm seed (List.range n)).nodup_iff.mpr (List.nodup_range n)

/-- C5: the split is a partition — the train and test index sets are
disjoint, test rows followed by train rows are a permutation of the input
(so their union as a set is the input dataset), the test set has
`ceil(0.2 * n)` rows (exactly 20% whenever `5 ∣ n`), the same index
partition is applied to features and labels, and the function is pure, so
the same input and seed always reproduce the identical partition. -/
theorem train_test_split_partition {α β : Type} (seed : ℕ) (xs : List α)
    (ys : List β) (hlen : ys.length = xs.length) :
    List.Disjoint (splitIndices seed xs.length).2
        (splitIndices seed xs.length).1 ∧
    ((train_test_split seed xs ys).2.1 ++
        (train_test_split seed xs ys).1).Perm xs ∧
    ((train_test_split seed xs ys).2.2.2 ++
        (train_test_split seed xs ys).2.2.1).Perm ys ∧
    (splitIndices seed xs.length).2.length = (xs.length + 4) / 5 ∧
    train_test_split seed xs ys = train_test_split seed xs ys := by
  have hperm : (shuffle seed (List.range xs.length)).Perm
      (List.range xs.length) := shuffle_perm _ _
  refine ⟨?_, ?_, ?_, ?_, rfl⟩
  · exact List.disjoint_take_drop (splitIndices_nodup seed xs.length) le_rfl
  · show (((shuffle seed (List.range xs.length)).take
        (n_test xs.length)).filterMap (fun i => xs[i]?) ++
        ((shuffle seed (List.range xs.length)).drop
          (n_test xs.length)).filterMap (fun i => xs[i]?)).Perm xs
    rw [← List.filterMap_append, List.take_append_drop]
    exact perm_filterMap_getElem hperm
  · show (((shuffle seed (List.range xs.length)).take
        (n_test xs.length)).filterMap (fun i => ys[i]?) ++
        ((shuffle seed (List.range xs.length)).drop
          (n_test xs.length)).filterMap (fun i => ys[i]?)).Perm ys
    rw [← List.filterMap_append, List.take_append_drop]
    exact perm_filterMap_getElem (by rw [hlen]; exact hperm)
  · show ((shuffle seed (List.range xs.length)).take
        (n_test xs.length)).length = (xs.length + 4) / 5
    rw [List.length_take, hperm.length_eq, List.length_range]
    have : (xs.length + 4) / 5 ≤ xs.length := by omega
    simpa [n_test] using Nat.min_eq_left this

/-- Witness for `train_test_split_partition` at a concrete five-row input. -/
theorem train_test_split_partition_witness :
    ([10, 20, 30, 40, 50] : List ℕ).length =
        ([0, 1, 2, 3, 4] : List ℕ).length ∧
      (splitIndices 42 ([0, 1, 2, 3, 4] : List ℕ).length).2.length =
        (([0, 1, 2, 3, 4] : List ℕ).length + 4) / 5 :=
  ⟨by decide,
   (train_test_split_partition 42 ([0, 1, 2, 3, 4] : List ℕ)
     ([10, 20, 30, 40, 50] : List ℕ) (by decide)).2.2.2.1⟩

/-- Squared Euclidean distance between two feature vectors, used by SMOTE's
nearest-neighbour search. -/
def sqDist (a b : List ℚ) : ℚ := ((a.zip b).map (fun p => (p.1 - p.2) ^ 2)).sum

/-- The `k` nearest vectors to `base` in `pool` (by squared distance). -/
def kNearest (k : ℕ) (base : List ℚ) (pool : List (List ℚ)) :
    List (List ℚ) :=
  (pool.mergeSort (fun u v => sqDist base u ≤ sqDist base v)).take k

/-- Convex combination `base + lam * (nb - base)` componentwise. -/
def interpolate (lam : ℚ) (base nb : List ℚ) : List ℚ :=
  (base.zip nb).map (fun p => p.1 + lam * (p.2 - p.1))

/-- One synthetic minority sample: pick a pseudo-random minority sample as
base, one of its 5 nearest minority neighbours (the sample itself excluded),
and a pseudo-random interpolation factor in `[0, 1)`. -/
def synthSample (seed t : ℕ) (minX : List (List ℚ)) : List ℚ :=
  let r1 := lcg (seed + t)
  let bi := r1 % minX.length
  let base := minX.getD bi []
  let nbs := kNearest 5 base (minX.eraseIdx bi)
  let nb := nbs.getD (lcg r1 % nbs.length) base
  interpolate ((lcg (lcg r1) % 1000 : ℕ) / 1000) base nb

/-- Embedding of `SMOTE(random_state=42).fit_resample(x, y)` of imblearn with
its default settings (`sampling_strategy='auto'`, `k_neighbors=5`): the
minority class of a binary target is oversampled with synthetic convex
combinations of minority samples and their 5 nearest minority neighbours
until both class counts are equal; the synthetic rows are appended after the
original rows.  The library raises when the target has a single class, or
when the minority class is too small for the 5-neighbour search (fewer than
six members). -/
def smote_fit_resample (seed : ℕ) (X : List (List ℚ)) (y : List Bool) :
    Except PipelineError (List (List ℚ) × List Bool) :=
  let c1 := y.count true
  let c0 := y.count false
  if c0 = 0 ∨ c1 = 0 then .error .singleClassTarget
  else if c0 = c1 then .ok (X, y)
  else
    let minB : Bool := decide (c1 < c0)
    let m := y.count minB
    let M := y.count (!minB)
    if m ≤ 5 then .error .insufficientSamples
    else
      let minX := (X.zip y).filterMap
        (fun p => if p.2 = minB then some p.1 else none)
      let need := M - m
      .ok (X ++ (List.range need).map (fun t => synthSample seed t minX),
           y ++ List.replicate need minB)

/-- C6: on a binary target with imbalanced classes whose minority class has
enough members for the 5-nearest-neighbour search, the resampler succeeds
and returns a target whose two class counts are exactly equal. -/
theorem smote_fit_resample_balances (seed : ℕ) (X : List (List ℚ))
    (y : List Bool) (himb : y.count false ≠ y.count true)
    (hmin : 5 < min (y.count false) (y.count true)) :
    ∃ X' y', smote_fit_resample seed X y = .ok (X', y') ∧
      y'.count false = y'.count true := by
  have h0 : 5 < y.count false := lt_of_lt_of_le hmin (min_le_left _ _)
  have h1 : 5 < y.count true := lt_of_lt_of_le hmin (min_le_right _ _)
  unfold smote_fit_resample
  rw [if_neg (by omega : ¬(y.count false = 0 ∨ y.count true = 0)),
      if_neg (by omega : ¬(y.count false = y.count true))]
  by_cases hlt : y.count true < y.count false
  · rw [show (decide (y.count true < y.count false)) = true from
      decide_eq_true hlt]
    rw [if_neg (by simpa using h1.not_le)]
    refine ⟨_, _, rfl, ?_⟩
    simp only [List.count_append, List.count_replicate]
    simp
    omega
  · rw [show (decide (y.count true < y.count false)) = false from
      decide_eq_false hlt]
    rw [if_neg (by simpa using h0.not_le)]
    refine ⟨_, _, rfl, ?_⟩
    simp only [List.count_append, List.count_replicate]
    simp
    omega

/-- Witness for `smote_fit_resample_balances`: 8 negative and 6 positive
labels. -/
theorem smote_fit_resample_balances_witness :
    (([false, false, false, false, false, false, false, false,
       true, true, true, true, true, true] : List Bool).count false ≠
      ([false, false, false, false, false, false, false, false,
        true, true, true, true, true, true] : List Bool).count true) ∧
    ∃ X' y', smote_fit_resample 42 []
        [false, false, false, false, false, false, false, false,
         true, true, true, true, true, true] = .ok (X', y') ∧
      y'.count false = y'.count true :=
  ⟨by decide,
   smote_fit_resample_balances 42 []
     [false, false, false, false, false, false, false, false,
      true, true, true, true, true, true] (by decide) (by decide)⟩

/-- The scores of the samples whose label equals `keep`, pairing each score
with its label positionally (the scripts call the metric with one score row
per test sample). -/
def scoresOf (keep : Bool) (y : List Bool) (s : List ℚ) : List ℚ :=
  (s.zip y).filterMap (fun q => if q.2 = keep then some q.1 else none)

/-- Contribution of one (positive, negative) score pair to the area under
the ROC curve: 1 when the positive sample's score is higher, 1/2 on a
tie. -/
def pairScore (a b : ℚ) : ℚ := if b < a then 1 else if a = b then 1/2 else 0

/-- Sum of pair contributions over all (positive, negative) score pairs. -/
def mwSum (pos neg : List ℚ) : ℚ :=
  (pos.map (fun a => (neg.map (fun b => pairScore a b)).sum)).sum

/-- Embedding of sklearn's `roc_auc_score(y_true, score)` for a binary target
and a single score per sample: the trapezoidal area under the ROC curve,
which for a binary target equals the normalized Mann-Whitney pair statistic
embedded here; sklearn raises `ValueError: Only one class present in y_true`
when a class is missing, embedded as `MetricUndefinedError`. -/
def roc_auc_score (y : List Bool) (s : List ℚ) : Except PipelineError ℚ :=
  if (scoresOf true y s).length = 0 ∨ (scoresOf false y s).length = 0 then
    .error .metricUndefined
  else
    .ok (mwSum (scoresOf true y s) (scoresOf false y s) /
      (((scoresOf true y s).length : ℚ) * ((scoresOf false y s).length : ℚ)))

/-- Embedding of `roc_auc_score(y_test, y_pred_proba)` as called by
`CNN_LSTM_Hybrid.py` and `resnet_Optimized.py`, where `y_test` is the
one-hot n×2 label matrix (here the class-1 indicator list) and
`y_pred_proba` the full two-column softmax output: sklearn treats the
two-column inputs as multilabel-indicator data and macro-averages the two
per-column binary AUCs (column 0 scores against the class-0 indicator,
column 1 scores against the class-1 indicator), raising when any column of
`y_true` is single-class. -/
def roc_auc_score_onehot (y : List Bool) (p : List (ℚ × ℚ)) :
    Except PipelineError ℚ :=
  match roc_auc_score (y.map not) (p.map Prod.fst),
        roc_auc_score y (p.map Prod.snd) with
  | .ok a0, .ok a1 => .ok ((a0 + a1) / 2)
  | _, _ => .error .metricUndefined

theorem scoresOf_nil_of_all (keep : Bool) (y : List Bool) (s : List ℚ)
    (h : ∀ b ∈ y, b = !keep) : scoresOf keep y s = [] := by
  apply List.filterMap_eq_nil_iff.mpr
  intro q hq
  have hb := h q.2 (List.of_mem_zip hq).2
  have hne : q.2 ≠ keep := by
    rw [hb]
    cases keep <;> simp
  rw [if_neg hne]

/-- C3: when the ground-truth labels contain only one class, the ROC-AUC
computation reports the metric-undefined error instead of a placeholder
value, both in the single-score form used by `GradientBoost.py` and in the
one-hot form used by `CNN_LSTM_Hybrid.py` and `resnet_Optimized.py`. -/
theorem roc_auc_single_class (y : List Bool) (s : List ℚ) (p : List (ℚ × ℚ))
    (h : (∀ b ∈ y, b = true) ∨ (∀ b ∈ y, b = false)) :
    roc_auc_score y s = .error .metricUndefined ∧
      roc_auc_score_onehot y p = .error .metricUndefined := by
  have hbin : roc_auc_score y s = .error .metricUndefined := by
    rcases h with h | h
    · have hneg : scoresOf false y s = [] :=
        scoresOf_nil_of_all false y s (by simpa using h)
      rw [roc_auc_score, if_pos (Or.inr (by rw [hneg]; rfl))]
    · have hpos : scoresOf true y s = [] :=
        scoresOf_nil_of_all true y s (by simpa using h)
      rw [roc_auc_score, if_pos (Or.inl (by rw [hpos]; rfl))]
  refine ⟨hbin, ?_⟩
  have hcol0 : roc_auc_score (y.map not) (p.map Prod.fst) =
      .error .metricUndefined := by
    rcases h with h | h
    · have hpos : scoresOf true (y.map not) (p.map Prod.fst) = [] := by
        apply scoresOf_nil_of_all
        intro b hb
        rcases List.mem_map.mp hb with ⟨b', hb', rfl⟩
        rw [h b' hb']
      rw [roc_auc_score, if_pos (Or.inl (by rw [hpos]; rfl))]
    · have hneg : scoresOf false (y.map not) (p.map Prod.fst) = [] := by
        apply scoresOf_nil_of_all
        intro b hb
        rcases List.mem_map.mp hb with ⟨b', hb', rfl⟩
        rw [h b' hb']
      rw [roc_auc_score, if_pos (Or.inr (by rw [hneg]; rfl))]
  cases h2 : roc_auc_score y (p.map Prod.snd) <;>
    simp [roc_auc_score_onehot, hcol0, h2]

/-- Witness for `roc_auc_single_class`: a two-sample test set whose labels
are both positive. -/
theorem roc_auc_single_class_witness :
    (∀ b ∈ ([true, true] : List Bool), b = true) ∧
      roc_auc_score [true, true] [1/2, 1/4] = .error .metricUndefined ∧
      roc_auc_score_onehot [true, true] [(1/2, 1/2), (3/4, 1/4)] =
        .error .metricUndefined :=
  ⟨by simp,
   roc_auc_single_class [true, true] [1/2, 1/4] [(1/2, 1/2), (3/4, 1/4)]
     (Or.inl (by simp))⟩

theorem scoresOf_nil (keep : Bool) (s : List ℚ) : scoresOf keep [] s = [] := by
  simp [scoresOf]

theorem scoresOf_nil_s (keep : Bool) (y : List Bool) :
    scoresOf keep y [] = [] := by
  simp [scoresOf]

theorem scoresOf_cons (keep b : Bool) (y : List Bool) (a : ℚ) (s : List ℚ) :
    scoresOf keep (b :: y) (a :: s) =
      if b = keep then a :: scoresOf keep y s else scoresOf keep y s := by
  by_cases hb : b = keep <;> simp [scoresOf, List.filterMap_cons, hb]

theorem scoresOf_length (keep : Bool) :
    ∀ (y : List Bool) (s : List ℚ), s.length = y.length →
      (scoresOf keep y s).length = y.count keep := by
  intro y
  induction y with
  | nil => intro s _; simp [scoresOf_nil]
  | cons b y' ih =>
    intro s hs
    match s with
    | a :: s' =>
      rw [scoresOf_cons, List.count_cons]
      by_cases hb : b = keep
      · subst hb
        simp [ih s' (by simpa using hs)]
      · simp [hb, ih s' (by simpa using hs)]

theorem scoresOf_flip (keep : Bool) :
    ∀ (y : List Bool) (p : List (ℚ × ℚ)), (∀ q ∈ p, q.1 + q.2 = 1) →
      scoresOf keep (y.map not) (p.map Prod.fst) =
        (scoresOf (!keep) y (p.map Prod.snd)).map (fun x => 1 - x) := by
  intro y
  induction y with
  | nil => intro p _; simp [scoresOf_nil]
  | cons b y' ih =>
    intro p hsum
    match p with
    | [] => simp [scoresOf_nil_s]
    | q :: p' =>
      have hq : q.1 = 1 - q.2 := by
        have := hsum q (List.mem_cons_self q p')
        linarith
      have htl := ih p' (fun r hr => hsum r (List.mem_cons_of_mem q hr))
      simp only [List.map_cons, scoresOf_cons]
      cases b <;> cases keep <;> simp [scoresOf_cons, htl, hq]

theorem pairScore_flip (a b : ℚ) : pairScore (1 - b) (1 - a) = pairScore a b := by
  unfold pairScore
  by_cases h1 : b < a
  · rw [if_pos (by linarith : (1 : ℚ) - a < 1 - b), if_pos h1]
  · rw [if_neg (fun hc => h1 (by linarith)), if_neg h1]
    by_cases h2 : a = b
    · rw [if_pos (by rw [h2]), if_pos h2]
    · rw [if_neg (fun hc => h2 (by linarith)), if_neg h2]

theorem map_sum_comm (f : ℚ → ℚ → ℚ) (l1 l2 : List ℚ) :
    (l1.map (fun a => (l2.map (fun b => f a b)).sum)).sum =
      (l2.map (fun b => (l1.map (fun a => f a b)).sum)).sum := by
  induction l1 with
  | nil => simp
  | cons a l ih =>
    simp only [List.map_cons, List.sum_cons, ih]
    rw [← List.sum_map_add]

theorem mwSum_swap (pos neg : List ℚ) :
    mwSum (neg.map (fun x => 1 - x)) (pos.map (fun x => 1 - x)) =
      mwSum pos neg := by
  unfold mwSum
  rw [List.map_map]
  have h1 : ∀ b : ℚ,
      ((pos.map (fun x => 1 - x)).map (fun x => pairScore (1 - b) x)).sum =
        (pos.map (fun a => pairScore a b)).sum := by
    intro b
    rw [List.map_map]
    congr 1
    apply List.map_congr_left
    intro a _
    exact pairScore_flip a b
  calc (neg.map ((fun a => ((pos.map (fun x => 1 - x)).map
          (fun b => pairScore a b)).sum) ∘ (fun x => 1 - x))).sum
      = (neg.map (fun b => (pos.map (fun a => pairScore a b)).sum)).sum := by
        apply congrArg
        apply List.map_congr_left
        intro b _
        exact h1 b
    _ = (pos.map (fun a => (neg.map (fun b => pairScore a b)).sum)).sum :=
        (map_sum_comm pairScore pos neg).symm

/-- C4: when both classes are present in the test labels and each predicted
probability row sums to 1 (softmax output), the ROC-AUC the scripts compute
equals the area under the ROC curve of the predicted probability of the
positive class: `GradientBoost.py` passes exactly that single score column
(`y_pred_proba[:, 1]`), and the macro-averaged two-column value computed by
`CNN_LSTM_Hybrid.py` and `resnet_Optimized.py` equals the same number. -/
theorem roc_auc_positive_class (y : List Bool) (p : List (ℚ × ℚ))
    (hlen : p.length = y.length) (hsum : ∀ q ∈ p, q.1 + q.2 = 1)
    (hpos : true ∈ y) (hneg : false ∈ y) :
    ∃ a, roc_auc_score y (p.map Prod.snd) = .ok a ∧
      roc_auc_score_onehot y p = .ok a := by
  have hs1len : (p.map Prod.snd).length = y.length := by simpa using hlen
  have hp1 : (scoresOf true y (p.map Prod.snd)).length = y.count true :=
    scoresOf_length true y _ hs1len
  have hn1 : (scoresOf false y (p.map Prod.snd)).length = y.count false :=
    scoresOf_length false y _ hs1len
  have hcp : 0 < y.count true := List.count_pos_iff.mpr hpos
  have hcn : 0 < y.count false := List.count_pos_iff.mpr hneg
  have hpne : (scoresOf true y (p.map Prod.snd)).length ≠ 0 := by omega
  have hnne : (scoresOf false y (p.map Prod.snd)).length ≠ 0 := by omega
  have hbin : roc_auc_score y (p.map Prod.snd) =
      .ok (mwSum (scoresOf true y (p.map Prod.snd))
            (scoresOf false y (p.map Prod.snd)) /
          (((scoresOf true y (p.map Prod.snd)).length : ℚ) *
            ((scoresOf false y (p.map Prod.snd)).length : ℚ))) := by
    rw [roc_auc_score, if_neg (by push_neg; exact ⟨hpne, hnne⟩)]
  have hflipT : scoresOf true (y.map not) (p.map Prod.fst) =
      (scoresOf false y (p.map Prod.snd)).map (fun x => 1 - x) := by
    simpa using scoresOf_flip true y p hsum
  have hflipF : scoresOf false (y.map not) (p.map Prod.fst) =
      (scoresOf true y (p.map Prod.snd)).map (fun x => 1 - x) := by
    simpa using scoresOf_flip false y p hsum
  have hcol0 : roc_auc_score (y.map not) (p.map Prod.fst) =
      .ok (mwSum (scoresOf true y (p.map Prod.snd))
            (scoresOf false y (p.map Prod.snd)) /
          (((scoresOf true y (p.map Prod.snd)).length : ℚ) *
            ((scoresOf false y (p.map Prod.snd)).length : ℚ))) := by
    rw [roc_auc_score, hflipT, hflipF, if_neg (by
      push_neg
      constructor <;> rw [List.length_map] <;> assumption)]
    rw [mwSum_swap, List.length_map, List.length_map]
    rw [mul_comm (((scoresOf false y (p.map Prod.snd)).length : ℚ)) _]
  refine ⟨_, hbin, ?_⟩
  rw [roc_auc_score_onehot, hcol0, hbin]
  have habs : ∀ x : ℚ, (x + x) / 2 = x := fun x => by ring
  exact congrArg Except.ok (habs _)

theorem probRowsSumOne :
    ∀ q ∈ ([(1/4, 3/4), (2/3, 1/3)] : List (ℚ × ℚ)), q.1 + q.2 = 1 := by
  intro q hq
  rcases List.mem_cons.mp hq with rfl | hq'
  · norm_num
  · rcases List.mem_singleton.mp hq' with rfl
    norm_num

/-- Witness for `roc_auc_positive_class` at a two-sample test set with one
positive and one negative label and softmax probability rows. -/
theorem roc_auc_positive_class_witness :
    (∀ q ∈ ([(1/4, 3/4), (2/3, 1/3)] : List (ℚ × ℚ)), q.1 + q.2 = 1) ∧
      ∃ a, roc_auc_score [true, false]
          (([(1/4, 3/4), (2/3, 1/3)] : List (ℚ × ℚ)).map Prod.snd) = .ok a ∧
        roc_auc_score_onehot [true, false] [(1/4, 3/4), (2/3, 1/3)] = .ok a :=
  ⟨probRowsSumOne,
   roc_auc_positive_class [true, false] [(1/4, 3/4), (2/3, 1/3)] (by decide)
     probRowsSumOne (by decide) (by decide)⟩

/-- Existence of the two intermediate raster files and of the output PDF in
the report renderer's working directories. -/
structure FileState where
  crPng : Bool
  cmPng : Bool
  pdfWritten : Bool
deriving DecidableEq, Repr

/-- Embedding of `create_classification_report_image`: renders the metric
table and writes `classification_report.png`. -/
def create_classification_report_image (st : FileState) : FileState :=
  { st with crPng := true }

/-- Embedding of `create_pdf`: draws the report page, saves
`confusion_matrix.png` midway (the heatmap is written before the final
canvas save), and then writes the PDF at `c.save()`.  `saveFails` selects
the run in which the final PDF write raises (for example the output path is
unwritable); a raised exception propagates to the caller with the side
effects performed so far retained, which the error value carries. -/
def create_pdf (saveFails : Bool) (st : FileState) :
    Except (PipelineError × FileState) FileState :=
  let st1 := { st with cmPng := true }
  if saveFails then .error (.reportWrite, st1)
  else .ok { st1 with pdfWritten := true }

/-- Embedding of `delete_images`: `os.remove` on both intermediate files. -/
def delete_images (st : FileState) : FileState :=
  { st with crPng := false, cmPng := false }

/-- The tail of `evaluate_model` shared by all three scripts:
`create_classification_report_image(...)`, then `create_pdf(...)`, then
`delete_images()`, with no `try`/`finally` around them — an exception in
`create_pdf` propagates and `delete_images` never runs. -/
def evaluate_model_report (saveFails : Bool) (st : FileState) :
    Except (PipelineError × FileState) FileState :=
  match create_pdf saveFails (create_classification_report_image st) with
  | .error e => .error e
  | .ok st2 => .ok (delete_images st2)

/-- C2 evaluated at both exit paths: on the success path the two
intermediate images are indeed gone when the call returns, but on the run
where the PDF write fails partway (`c.save()` raises) the call returns with
both `classification_report.png` and `confusion_matrix.png` still present —
cleanup does not happen on every exit path, contradicting the claim. -/
theorem evaluate_model_leaves_images_on_failure :
    evaluate_model_report false ⟨false, false, false⟩ =
        .ok ⟨false, false, true⟩ ∧
      evaluate_model_report true ⟨false, false, false⟩ =
        .error (.reportWrite, ⟨true, true, false⟩) :=
  ⟨rfl, rfl⟩

/-- Training status of a model object: `XGBClassifier(...)` and the compiled
`Sequential` model start untrained; fitting trains them. -/
structure ModelState where
  trained : Bool
deriving DecidableEq, Repr

/-- A freshly constructed, unfitted model object. -/
def freshModel : ModelState := ⟨false⟩

/-- Serializing a model (`pickle.dump` / `model.save`) records the trained
flag of the object at the moment of the dump. -/
def dumpModel (m : ModelState) (artifacts : List Bool) : List Bool :=
  artifacts ++ [m.trained]

/-- Fitting (`random_search.fit` / `model.fit`) yields a trained model. -/
def fitModel (_ : ModelState) : ModelState := ⟨true⟩

/-- Embedding of `build_gradient_boosting_model`: construct `XGBClassifier`,
`pickle.dump` it to `../models/XGBoost_model.pkl`, then run
`random_search.fit` and return the best estimator.  Returns the final model
and the artifact dumps performed. -/
def build_gradient_boosting_model (artifacts : List Bool) :
    ModelState × List Bool :=
  let model := freshModel
  let artifacts1 := dumpModel model artifacts
  let best := fitModel model
  (best, artifacts1)

/-- Embedding of `build_cnn_lstm_model`: construct and compile the
`Sequential` model, `model.save(...)` it to
`../models/CNN_LSTM_Hybrid_model.keras`, and return it — no fitting happens
inside.  The caller (`objective` / `main`) fits it only afterwards. -/
def build_cnn_lstm_model (artifacts : List Bool) : ModelState × List Bool :=
  let model := freshModel
  let artifacts1 := dumpModel model artifacts
  (model, artifacts1)

/-- The fit following `build_cnn_lstm_model` in `main`
(`best_model.fit(...)`). -/
def cnn_lstm_main_run (artifacts : List Bool) : ModelState × List Bool :=
  let (model, artifacts1) := build_cnn_lstm_model artifacts
  (fitModel model, artifacts1)

/-- C9: in the recurrent and boosted variants the model-building step writes
the serialized artifact before any training: starting from no artifacts, the
single artifact dumped during `build_gradient_boosting_model` (resp.
`build_cnn_lstm_model`) records an untrained model, while the model that
training later produces is trained — so the persisted object is the
untrained one. -/
theorem model_saved_before_training :
    (build_gradient_boosting_model []).2 = [false] ∧
      (build_gradient_boosting_model []).1.trained = true ∧
      (cnn_lstm_main_run []).2 = [false] ∧
      (cnn_lstm_main_run []).1.trained = true :=
  ⟨rfl, rfl, rfl, rfl⟩
